import Mathlib

/-!
Verification development for the droidz.org stick crawler (src/droidz.py).

The Python program is shallowly embedded: the sqlite sticks table becomes a
list of rows, bs4 element lookups become fields of page structures holding the
already-extracted texts and href attributes, network and filesystem effects
become explicit event traces, and every fallible step returns Except/Option.
Definitions follow the source functions and keep their names.
-/

set_option autoImplicit false

/-- One row of the sticks table (DB_INIT in the source). Every column except
the primary key id is nullable, so each is an Option. Stub rows inserted by
insert_id leave every optional field none. -/
structure StickData where
  id : String
  name : Option String := none
  description : Option String := none
  date : Option Int := none
  author : Option String := none
  download_link : Option String := none
  category : Option String := none
  downloads : Option Nat := none
  version : Option String := none
  vote_score : Option Int := none
  usage_rating : Option String := none
  retrieved : Option Int := none
deriving DecidableEq, Repr

/-- The ephemeral status object built by insert_id:
types.SimpleNamespace(id=id, is_new=not existing). -/
structure CrawlStatus where
  id : String
  is_new : Bool
deriving DecidableEq, Repr

/-- The sticks table, rows in insertion order. The PRIMARY KEY constraint of
the real database is carried as a hypothesis (at most one row per id) where a
claim needs it. -/
abbrev Store := List StickData

/-- SELECT * FROM sticks WHERE id == ? followed by fetchone: the first row
whose id matches, if any. -/
def select_stick (store : Store) (id : String) : Option StickData :=
  store.find? (fun row => row.id == id)

/-- The bare row written by insert_id: only the id column is set. -/
def stub_row (id : String) : StickData := { id := id }

/-- insert_id from the source: check existence, insert a bare row when the id
is absent, and report whether it was new. -/
def insert_id (store : Store) (id : String) : Store × CrawlStatus :=
  match select_stick store id with
  | some _ => (store, { id := id, is_new := false })
  | none => (store ++ [stub_row id], { id := id, is_new := true })

/-- insert_ids from the source: insert_id over each id in order, statuses
discarded. -/
def insert_ids (store : Store) (ids : List String) : Store :=
  ids.foldl (fun s i => (insert_id s i).1) store

/-- insert_stick from the source: UPDATE every matching row in place when the
id exists, INSERT a full row otherwise. -/
def insert_stick (store : Store) (data : StickData) : Store :=
  if (select_stick store data.id).isSome then
    store.map (fun row => if row.id == data.id then data else row)
  else
    store ++ [data]

/-- insert_sticks from the source: insert_stick over each data in order. -/
def insert_sticks (store : Store) (datas : List StickData) : Store :=
  datas.foldl insert_stick store

/-- Number of rows carrying a given id. -/
def count_rows (store : Store) (id : String) : Nat :=
  (store.filter (fun row => row.id == id)).length

/-- Python str.split with a nonempty separator: cut at each non-overlapping
occurrence, scanning left to right. Fuel is the input length, consumed one
unit per examined character so the recursion is structural and the kernel can
evaluate it. -/
def py_split_aux (sep : List Char) : Nat → List Char → List Char → List (List Char)
  | _, cur, [] => [cur.reverse]
  | 0, cur, rest => [cur.reverse ++ rest]
  | fuel + 1, cur, c :: cs =>
    if sep.isPrefixOf (c :: cs) then
      cur.reverse :: py_split_aux sep fuel [] ((c :: cs).drop sep.length)
    else
      py_split_aux sep fuel (c :: cur) cs

/-- Python str.split. The sources only split on nonempty separators. -/
def py_split (s sep : String) : List String :=
  if sep.data.isEmpty then [s]
  else (py_split_aux sep.data s.data.length [] s.data).map String.mk

/-- Python str.replace: replace every non-overlapping occurrence, scanning
left to right, with the same structural fuel. The sources only replace
nonempty patterns. -/
def py_replace_aux (old new : List Char) : Nat → List Char → List Char
  | _, [] => []
  | 0, rest => rest
  | fuel + 1, c :: cs =>
    if old.isPrefixOf (c :: cs) then
      new ++ py_replace_aux old new fuel ((c :: cs).drop old.length)
    else
      c :: py_replace_aux old new fuel cs

/-- Python str.replace on strings. -/
def py_replace (s old new : String) : String :=
  if old.data.isEmpty then s
  else String.mk (py_replace_aux old.data new.data s.data.length s.data)

/-- Python \s as it occurs in the pages: space, tab and the ASCII newline
family. -/
def is_space (c : Char) : Bool :=
  c = ' ' || c = '\t' || c = '\n' || c = Char.ofNat 13 || c = Char.ofNat 11 || c = Char.ofNat 12

/-- Python str.strip with no argument: whitespace removed from both ends. -/
def py_strip (s : String) : String :=
  String.mk (((s.data.dropWhile is_space).reverse.dropWhile is_space).reverse)

/-- Python str.lower on the ASCII text the crawler handles. -/
def py_lower (s : String) : String :=
  String.mk (s.data.map Char.toLower)

/-- Accumulate a digit run into a number. -/
def digits_to_nat (ds : List Char) : Nat :=
  ds.foldl (fun n c => n * 10 + (c.toNat - 48)) 0

/-- Python int() restricted to what the digit-class captures can produce:
a nonempty all-digit run. -/
def py_toNat (s : String) : Option Nat :=
  if s.data ≠ [] && s.data.all Char.isDigit then some (digits_to_nat s.data)
  else none

/-- Python int() restricted to what the minus-digit-class captures can
produce: an optional single leading minus then a nonempty digit run. -/
def py_toInt (s : String) : Option Int :=
  match s.data with
  | '-' :: rest =>
    if rest ≠ [] && rest.all Char.isDigit then some (-(digits_to_nat rest : Int))
    else none
  | l =>
    if l ≠ [] && l.all Char.isDigit then some ((digits_to_nat l : Int)) else none

/-- id_from_direct_url from the source: take the text after the last
/direct/ marker, then cut at the first slash and the first question mark. -/
def id_from_direct_url (direct_url : String) : String :=
  let after := (py_split direct_url "/direct/").getLastD ""
  ((py_split ((py_split after "/").headD "") "?").headD "")

/-- An anchor element as bs4 returns it from find_all. Tag equality in bs4
compares the serialized markup, captured here by the href attribute together
with the anchor text. -/
structure Anchor where
  href : String
  text : String
deriving DecidableEq, Repr

/-- Python set.update: add each element not already present. Insertion order
is kept so the model stays a list; only membership and size matter. -/
def set_update {α : Type} [DecidableEq α] (all new_elems : List α) : List α :=
  new_elems.foldl (fun acc a => if a ∈ acc then acc else acc ++ [a]) all

/-- The id extracted from one anchor. -/
def anchor_id (a : Anchor) : String := id_from_direct_url a.href

/-- The while loop of scrape_category. pages n is the list of anchors that
find_all returns for page n; fuel bounds the iteration count (the source loops
unboundedly; none means fuel ran out). Returns the yielded ids in order
together with the page number whose fetch contributed no new anchor. -/
def scrape_category_aux (pages : Nat → List Anchor) :
    Nat → Nat → List Anchor → Option (List String × Nat)
  | 0, _, _ => none
  | fuel + 1, page, all =>
    let page_anchors := pages page
    let all2 := set_update all page_anchors
    if all2.length = all.length then
      some ([], page)
    else
      match scrape_category_aux pages fuel (page + 1) all2 with
      | none => none
      | some (rest, stopped) => some (page_anchors.map anchor_id ++ rest, stopped)

/-- scrape_category from the source: start at page 1 with an empty running
set. -/
def scrape_category (pages : Nat → List Anchor) (fuel : Nat) :
    Option (List String × Nat) :=
  scrape_category_aux pages fuel 1 []

/-- The traversal as claim C2 words it: the running set holds extracted
identifiers, and the loop stops as soon as a page contributes zero new
identifiers. Stated for comparison against scrape_category. -/
def scrape_category_claim_aux (pages : Nat → List Anchor) :
    Nat → Nat → List String → Option (List String × Nat)
  | 0, _, _ => none
  | fuel + 1, page, known =>
    let page_ids := (pages page).map anchor_id
    let known2 := set_update known page_ids
    if known2.length = known.length then
      some ([], page)
    else
      match scrape_category_claim_aux pages fuel (page + 1) known2 with
      | none => none
      | some (rest, stopped) => some (page_ids ++ rest, stopped)

/-- Claim C2's wording of scrape_category, starting at page 1. -/
def scrape_category_claim (pages : Nat → List Anchor) (fuel : Nat) :
    Option (List String × Nat) :=
  scrape_category_claim_aux pages fuel 1 []

/-- Running set of anchors after processing n pages beginning at page p. -/
def accum_pages (pages : Nat → List Anchor) : List Anchor → Nat → Nat → List Anchor
  | all, _, 0 => all
  | all, p, n + 1 => accum_pages pages (set_update all (pages p)) (p + 1) n

/-- Concatenated ids of n pages beginning at page p. -/
def pages_ids (pages : Nat → List Anchor) : Nat → Nat → List String
  | _, 0 => []
  | p, n + 1 => (pages p).map anchor_id ++ pages_ids pages (p + 1) n

/-- One candidate panel of the homepage: the text of an h2 heading together
with the anchors found inside its parent container. -/
structure Panel where
  heading : String
  anchors : List Anchor
deriving DecidableEq, Repr

/-- Errors raised while parsing a page, tagged with the field or element the
source was extracting when it failed. -/
inductive ParseError
  | missingElement (what : String)
  | malformedLine (what : String)
deriving DecidableEq, Repr

/-- The heading marker scrape_latest looks for. -/
def LATEST_MARKER : String := "Latest 50 Accepted"

/-- Python substring containment (the in operator) on character lists. -/
def contains_chars (needle : List Char) : List Char → Bool
  | [] => needle.isEmpty
  | c :: cs => needle.isPrefixOf (c :: cs) || contains_chars needle cs

/-- Python substring containment on strings. -/
def str_contains (hay needle : String) : Bool :=
  contains_chars needle.data hay.data

/-- scrape_latest from the source: scan the h2 headings in document order for
the marker text; with no match the source trips over an unbound local
(NameError), modelled as the parse error; otherwise extract the ids of the
anchors inside the parent of the matched heading, most recent first. -/
def scrape_latest (panels : List Panel) : Except ParseError (List String) :=
  match panels.find? (fun p => str_contains p.heading LATEST_MARKER) with
  | none => Except.error (ParseError.missingElement "latest_50_h2")
  | some p => Except.ok (p.anchors.map anchor_id)

/-- Character class of the vote score capture [-\d]. -/
def is_vote_char (c : Char) : Bool :=
  c = '-' || c.isDigit

/-- re.search for a pattern of the form label(tail): try each occurrence of
the literal label from left to right and extract from the remainder; on
extraction failure resume scanning one character further, as the regex engine
does. -/
def find_label_match (label : List Char) (extract : List Char → Option String) :
    List Char → Option String
  | [] => none
  | c :: cs =>
    if label.isPrefixOf (c :: cs) then
      match extract ((c :: cs).drop label.length) with
      | some v => some v
      | none => find_label_match label extract cs
    else find_label_match label extract cs

/-- Tail pattern (cls+)\s*$ on one line: the greedy class run must be followed
by whitespace only, and captures the run. The class never contains whitespace,
so greedy matching needs no backtracking. -/
def greedy_class_extract (cls : Char → Bool) (tail : List Char) : Option String :=
  let run := tail.takeWhile cls
  let rest := tail.dropWhile cls
  if run.isEmpty then none
  else if rest.all is_space then some (String.mk run) else none

/-- Tail pattern (.+?)\s*$ on one line: lazy, so the capture is the shortest
nonempty prefix whose remainder is all whitespace. That is the line with its
trailing whitespace removed, except that an all-whitespace nonempty tail
captures just its first character. -/
def lazy_dot_extract (tail : List Char) : Option String :=
  match tail with
  | [] => none
  | c :: _ =>
    let stripped := (tail.reverse.dropWhile is_space).reverse
    if stripped.isEmpty then some (String.mk [c]) else some (String.mk stripped)

/-- Scan lines in order, looking for the first line holding a match. -/
def search_lines (label : List Char) (extract : List Char → Option String) :
    List String → Option String
  | [] => none
  | line :: rest =>
    match find_label_match label extract line.data with
    | some v => some v
    | none => search_lines label extract rest

/-- re.search with re.M over a block of text: the patterns contain no anchors
besides a final dollar and their captures cannot cross a newline, so scanning
the text from the start equals scanning its lines in order. -/
def search_multiline (text : String) (label : String)
    (extract : List Char → Option String) : Option String :=
  search_lines label.data extract (py_split text "\n")

/-- The English month names strptime matches for the B directive, lowercased
because its matching is case-insensitive. -/
def MONTH_NAMES : List String :=
  ["january", "february", "march", "april", "may", "june",
   "july", "august", "september", "october", "november", "december"]

/-- Day count of a month, with the Gregorian leap rule, as the datetime
constructor validates it. -/
def days_in_month (year month : Nat) : Nat :=
  if month = 2 then
    if year % 4 = 0 && (year % 100 ≠ 0 || year % 400 = 0) then 29 else 28
  else if month = 4 || month = 6 || month = 9 || month = 11 then 30
  else 31

/-- Days between 1970-01-01 and the given civil date (proleptic Gregorian).
The source converts the parsed date through the host timezone; the numeric
value is modelled as the UTC midnight timestamp, which no claim inspects. -/
def days_from_civil (y m d : Nat) : Int :=
  let ya : Int := if m ≤ 2 then (y : Int) - 1 else (y : Int)
  let era : Int := ya / 400
  let yoe : Int := ya - era * 400
  let doy : Int := (153 * (((m : Int) + 9) % 12) + 2) / 5 + (d : Int) - 1
  let doe : Int := yoe * 365 + yoe / 4 - yoe / 100 + doy
  era * 146097 + doe - 719468

/-- The d directive of strptime: two-character day alternatives 01-31. -/
def day2_valid (c1 c2 : Char) : Bool :=
  (c1 = '3' && (c2 = '0' || c2 = '1')) ||
  ((c1 = '1' || c1 = '2') && c2.isDigit) ||
  (c1 = '0' && c2.isDigit && c2 ≠ '0')

/-- The literal comma-space of the format followed by the exactly-four-digit
Y directive, which must end the input since strptime rejects leftover text. -/
def parse_comma_year : List Char → Option Nat
  | ',' :: ' ' :: y1 :: y2 :: y3 :: y4 :: [] =>
    if y1.isDigit && y2.isDigit && y3.isDigit && y4.isDigit then
      some ((((y1.toNat - 48) * 10 + (y2.toNat - 48)) * 10 + (y3.toNat - 48)) * 10
        + (y4.toNat - 48))
    else none
  | _ => none

/-- One-digit day alternative 1-9 followed by the rest of the format. -/
def parse_day1 : List Char → Option (Nat × Nat)
  | c :: rest =>
    if c.isDigit && c ≠ '0' then
      (parse_comma_year rest).map (fun y => (c.toNat - 48, y))
    else none
  | [] => none

/-- Day and year from what follows the month name and space: the regex tries
the two-digit day alternatives first and falls back to one digit when the
remaining literal text then fails to match. -/
def parse_day_year (chars : List Char) : Option (Nat × Nat) :=
  match chars with
  | c1 :: c2 :: rest =>
    if day2_valid c1 c2 then
      match parse_comma_year rest with
      | some y => some ((c1.toNat - 48) * 10 + (c2.toNat - 48), y)
      | none => parse_day1 chars
    else parse_day1 chars
  | _ => parse_day1 chars

/-- Month number whose name starts the lowercased input, with the following
space consumed. -/
def parse_month : Nat → List String → List Char → Option (Nat × List Char)
  | _, [], _ => none
  | m, name :: rest, chars =>
    if (name.data ++ [' ']).isPrefixOf chars then
      some (m, chars.drop (name.length + 1))
    else parse_month (m + 1) rest chars

/-- datetime.strptime(s, B d, Y) followed by timestamp(): month name, day,
comma, four-digit year, then calendar validation by the datetime constructor
(year at least 1, day within the month). -/
def parse_date (s : String) : Option Int :=
  match parse_month 1 MONTH_NAMES (py_lower s).data with
  | none => none
  | some (month, rest) =>
    match parse_day_year rest with
    | none => none
    | some (day, year) =>
      if 1 ≤ year && day ≤ days_in_month year month then
        some (days_from_civil year month day * 86400)
      else none

/-- The canned no-comments placeholder, to be preceded by the author name. -/
def PLACEHOLDER_TAIL : String := ", has left no comments for this submission."

/-- The says marker, to be preceded by the author name. -/
def SAYS_TAIL : String := " says, "

/-- The description normalization of scrape_direct: strip the text, map the
exact placeholder to null, and otherwise delete every occurrence of the
author-says marker (str.replace replaces all occurrences). -/
def normalize_description (author raw : String) : Option String :=
  let d := py_strip raw
  if d = author ++ PLACEHOLDER_TAIL then none
  else some (py_replace d (author ++ SAYS_TAIL) "")

/-- The normalization as claim C5 words it: strip only a leading author-says
marker, leaving any later occurrence in place. Stated for comparison against
normalize_description. -/
def normalize_description_claim (author raw : String) : Option String :=
  let d := py_strip raw
  let marker := author ++ SAYS_TAIL
  if d = author ++ PLACEHOLDER_TAIL then none
  else if marker.data.isPrefixOf d.data then some (String.mk (d.data.drop marker.length))
  else some d

/-- One detail page after fetching, break-tag normalization and br-to-newline
replacement, holding what each bs4 lookup of scrape_direct would return:
the texts of the content blocks in order, the text of the first author-search
anchor, the text of the section-top h2, the text of the section content block,
and the href of the first grab anchor; none marks an absent element. -/
structure DetailPage where
  contents : List String
  author_anchor : Option String
  section_top_h2 : Option String
  section_content : Option String
  grab_anchor : Option String
deriving DecidableEq, Repr

/-- scrape_direct from the source, after the page fetch: every element lookup
and metadata line match in source order, failing with the field being
extracted; now stands for int(get_now()). -/
def scrape_direct (page : DetailPage) (id : String) (now : Int) :
    Except ParseError StickData :=
  match page.contents[1]? with
  | none => Except.error (ParseError.missingElement "stick_info")
  | some stick_info =>
  match page.author_anchor with
  | none => Except.error (ParseError.missingElement "author")
  | some author =>
  match search_multiline stick_info "Vote Score: " (greedy_class_extract is_vote_char) with
  | none => Except.error (ParseError.malformedLine "vote_score")
  | some vote_str =>
  match py_toInt vote_str with
  | none => Except.error (ParseError.malformedLine "vote_score_int")
  | some vote_score =>
  match search_multiline stick_info "Downloads: " (greedy_class_extract Char.isDigit) with
  | none => Except.error (ParseError.malformedLine "downloads")
  | some downloads_str =>
  match py_toNat downloads_str with
  | none => Except.error (ParseError.malformedLine "downloads_int")
  | some downloads =>
  match search_multiline stick_info "Category: " lazy_dot_extract with
  | none => Except.error (ParseError.malformedLine "category")
  | some category =>
  match search_multiline stick_info "Version: " lazy_dot_extract with
  | none => Except.error (ParseError.malformedLine "version")
  | some version =>
  match search_multiline stick_info "Usage Rating: " lazy_dot_extract with
  | none => Except.error (ParseError.malformedLine "usage_rating")
  | some usage_rating =>
  match search_multiline stick_info "Date Submitted: " lazy_dot_extract with
  | none => Except.error (ParseError.malformedLine "date")
  | some date_str =>
  match parse_date date_str with
  | none => Except.error (ParseError.malformedLine "date_value")
  | some date =>
  match page.section_top_h2 with
  | none => Except.error (ParseError.missingElement "name")
  | some name_raw =>
  match page.section_content with
  | none => Except.error (ParseError.missingElement "description")
  | some description_raw =>
  match page.grab_anchor with
  | none => Except.error (ParseError.missingElement "download_link")
  | some download_link =>
  Except.ok
    { id := id
      name := some (py_strip name_raw)
      description := normalize_description author description_raw
      date := some date
      author := some author
      download_link := some download_link
      category := some category
      downloads := some downloads
      version := some version
      vote_score := some vote_score
      usage_rating := some usage_rating
      retrieved := some now }

/-- The single-threaded detail pipeline of incremental_update and full_update:
scrape_directs yields one parsed stick per id and insert_sticks upserts each
as it arrives; the first parse failure propagates out of the generator before
anything for that id is yielded, so processing stops there. Returns the store
reached and the propagated error, if any. -/
def update_details (F : String → Except ParseError StickData) :
    Store → List String → Store × Option ParseError
  | store, [] => (store, none)
  | store, id :: rest =>
    match F id with
    | Except.error e => (store, some e)
    | Except.ok data => update_details F (insert_stick store data) rest

/-- The category list of the source. -/
def CATEGORIES : List String :=
  ["stickmen", "stickpacks", "vehicles", "weapons", "objects", "random",
   "effects", "backgrounds"]

/-- The first loop of incremental_update: insert_id over every latest id in
order, remembering only the status of the last call; none models the unbound
status local when the panel is empty. -/
def insert_latest (store : Store) (latest_ids : List String) :
    Store × Option CrawlStatus :=
  latest_ids.foldl
    (fun acc i =>
      let r := insert_id acc.1 i
      (r.1, some r.2))
    (store, none)

/-- The discovery phase of incremental_update: insert every latest-panel id,
then, exactly when the last-processed id was new, traverse every category and
insert stubs for all ids it yields. cat_ids gives the ids scrape_category
yields per category. Returns the resulting store and whether the category
fallback ran; none models the crash on an empty panel. -/
def incremental_update_discovery (store : Store) (latest_ids : List String)
    (cat_ids : String → List String) : Option (Store × Bool) :=
  match insert_latest store latest_ids with
  | (_, none) => none
  | (store1, some status) =>
    if status.is_new then
      some (CATEGORIES.foldl (fun s c => insert_ids s (cat_ids c)) store1, true)
    else
      some (store1, false)

/-- The discovery phase as claim C1 words it: walk the latest-panel ids most
recent first, insert each, stop at the first already-known id, and run the
category fallback exactly when the checked id (where the walk stopped) was
newly inserted. Stated for comparison against incremental_update_discovery. -/
def insert_latest_claim (store : Store) : List String → Store × Option CrawlStatus
  | [] => (store, none)
  | i :: rest =>
    let r := insert_id store i
    if r.2.is_new then
      match rest with
      | [] => (r.1, some r.2)
      | _ :: _ => insert_latest_claim r.1 rest
    else (r.1, some r.2)

/-- Claim C1's wording of the discovery phase. -/
def incremental_update_discovery_claim (store : Store) (latest_ids : List String)
    (cat_ids : String → List String) : Option (Store × Bool) :=
  match insert_latest_claim store latest_ids with
  | (_, none) => none
  | (store1, some status) =>
    if status.is_new then
      some (CATEGORIES.foldl (fun s c => insert_ids s (cat_ids c)) store1, true)
    else
      some (store1, false)

/-- Observable effects of the fetch and download paths, in program order. -/
inductive Event
  | print_line (text : String)
  | http_get (url : String) (user_agent : String)
  | ratelimit_acquire
  | make_dirs (path : String)
  | write_file (path : String)
  | run_tool (command : List String)
  | remove_file (path : String)
deriving DecidableEq, Repr

/-- The client identifier literal of the source before its newlines are
replaced. -/
def USERAGENT_RAW : String :=
  "\nMozilla/5.0 (Windows NT 10.0; Win64; x64) AppleWebKit/537.36 (KHTML, like Gecko)\nChrome/79.0.3945.130 Safari/537.36\n"

/-- USERAGENT from the source: newlines replaced by spaces, then stripped.
The session sends it on every request. -/
def USERAGENT : String := py_strip (py_replace USERAGENT_RAW "\n" " ")

/-- An HTTP response as the model sees it. -/
structure HttpResponse where
  status : Nat
  body : String
deriving DecidableEq, Repr

/-- Failure raised by response.raise_for_status. -/
inductive FetchError
  | http_status (status : Nat)
deriving DecidableEq, Repr

/-- raise_for_status raises exactly for client and server error codes. -/
def raise_for_status (status : Nat) : Bool :=
  400 ≤ status && status < 600

/-- request from the source: print the url, issue the GET through the session
(which carries the fixed client identifier header), and raise on an error
status. The emitted events are returned alongside the result; no rate limiter
appears on this path. -/
def request (url : String) (response : HttpResponse) :
    List Event × Except FetchError HttpResponse :=
  ([Event.print_line url, Event.http_get url USERAGENT],
   if raise_for_status response.status then
     Except.error (FetchError.http_status response.status)
   else Except.ok response)

/-- Failures on the download path. -/
inductive DownloadError
  | not_found
  | missing_filename
  | fetch_failed (e : FetchError)
deriving DecidableEq, Repr

/-- The download-link lookup opening download_stick: fetchone on an unknown id
yields nothing and subscripting it raises, modelled as not_found; a known row
yields its possibly-null download_link column. -/
def get_download_link (store : Store) (id : String) :
    Except DownloadError (Option String) :=
  match select_stick store id with
  | none => Except.error DownloadError.not_found
  | some row => Except.ok row.download_link

/-- re.search of file=(.+) over the download link: after the first occurrence
of the literal, the greedy dot run captures the rest of the line and must be
nonempty. -/
def re_search_file (link : String) : Option String :=
  find_label_match "file=".data
    (fun tail =>
      let run := tail.takeWhile (fun c => c ≠ '\n')
      if run.isEmpty then none else some (String.mk run))
    link.data

/-- The extension property of the pathclass library: the suffix after the
last dot of the file name, lowercased, empty when there is no dot. -/
def path_extension (filename : String) : String :=
  let parts := py_split filename "."
  if parts.length ≤ 1 then "" else py_lower (parts.getLastD "")

/-- The per-id directory pathclass builds under the download root. -/
def stick_directory (id : String) : String := "download/" ++ id

/-- The archive path inside the per-id directory. -/
def stick_filepath (id filename : String) : String :=
  stick_directory id ++ "/" ++ filename

/-- download_stick from the source. dir_exists tells whether the per-id
directory already exists, winrar is the resolved tool path if any, response is
what the network returns for the link, and tool_exit is the extraction tool's
exit status, which the source never inspects since subprocess.run is not asked
to check it. Returns the events in order and the directory path. -/
def download_stick (store : Store) (id : String) (overwrite extract : Bool)
    (dir_exists : Bool) (winrar : Option String) (response : HttpResponse)
    (tool_exit : Nat) : List Event × Except DownloadError String :=
  if dir_exists && !overwrite then ([], Except.ok (stick_directory id))
  else
    match select_stick store id with
    | none => ([], Except.error DownloadError.not_found)
    | some row =>
      match row.download_link with
      | none => ([], Except.error DownloadError.missing_filename)
      | some link =>
        match re_search_file link with
        | none => ([], Except.error DownloadError.missing_filename)
        | some filename =>
          let pre := [Event.ratelimit_acquire, Event.print_line ("Downloading " ++ id)]
          let req := request link response
          match req.2 with
          | Except.error e => (pre ++ req.1, Except.error (DownloadError.fetch_failed e))
          | Except.ok _ =>
            let written := pre ++ req.1 ++
              [Event.make_dirs (stick_directory id),
               Event.write_file (stick_filepath id filename)]
            if extract && winrar.isSome && path_extension filename == "zip" then
              let command := [winrar.getD "", "x", "-o+", "-ibck",
                stick_filepath id filename, "*.*", stick_directory id ++ "/"]
              (written ++ [Event.run_tool command,
                 Event.remove_file (stick_filepath id filename)],
               Except.ok (stick_directory id))
            else (written, Except.ok (stick_directory id))

/-- Arguments of the download subcommand. -/
structure DownloadArgs where
  ids : List String
  overwrite : Bool
  extract : Bool
deriving Repr

/-- The eager winrar check of download_argparse. -/
inductive CliError
  | missing_winrar
deriving DecidableEq, Repr

/-- download_argparse from the source, abstracted to which ids get downloaded:
the extract flag demands winrar up front; the single literal word all selects
every stored id; otherwise the loop body returns on its first iteration, so
only the first listed id is ever downloaded (an empty loop falls through and
downloads nothing; argparse itself guarantees at least one id). -/
def download_argparse (store : Store) (args : DownloadArgs)
    (winrar : Option String) : Except CliError (List String) :=
  if args.extract && winrar.isNone then Except.error CliError.missing_winrar
  else if args.ids.length == 1 && args.ids.headD "" == "all" then
    Except.ok (store.map (fun row => row.id))
  else
    match args.ids with
    | [] => Except.ok []
    | id :: _ => Except.ok [id]

/-- Category listing for counterexample C2: page 2 repeats the identifier of
page 1 through a different anchor element, page 3 repeats page 2 exactly. -/
def c2_pages : Nat → List Anchor
  | 1 => [{ href := "/direct/5?x=1", text := "n1" }]
  | 2 => [{ href := "/direct/5?x=2", text := "n1" }]
  | 3 => [{ href := "/direct/5?x=2", text := "n1" }]
  | _ => []

/-- Category listing for the C2 witness: page 2 repeats page 1 exactly. -/
def w2_pages : Nat → List Anchor
  | 1 => [{ href := "/direct/7", text := "w" }]
  | 2 => [{ href := "/direct/7", text := "w" }]
  | _ => []

/-- A well-formed info block for the concrete detail pages. -/
def fix_info : String :=
  "Vote Score: 3\nDownloads: 12\nCategory: Weapons\nVersion: 1.0\nUsage Rating: Everyone\nDate Submitted: January 2, 2010"

/-- A detail page every extraction step accepts. -/
def fix_page_ok : DetailPage :=
  { contents := ["top", fix_info]
    author_anchor := some "Bob"
    section_top_h2 := some " My Stick "
    section_content := some "Bob says, nice stick"
    grab_anchor := some "/resources/grab.php?file=my.zip" }

/-- A detail page with no elements at all: the first lookup fails. -/
def fix_page_bad : DetailPage :=
  { contents := [], author_anchor := none, section_top_h2 := none,
    section_content := none, grab_anchor := none }

/-- Pages for the C3 witness: id 88 serves the broken page. -/
def c3_pages : String → DetailPage :=
  fun i => if i == "88" then fix_page_bad else fix_page_ok

/-- A detail page whose description holds the author-says marker away from
the start, for claim C5. -/
def c5_page : DetailPage :=
  { contents := ["top", fix_info]
    author_anchor := some "Bob"
    section_top_h2 := some " My Stick "
    section_content := some "Intro. Bob says, hi"
    grab_anchor := some "/resources/grab.php?file=my.zip" }

/-- The row scrape_direct builds from c5_page for id 7 at time 0. -/
def c5_data : StickData :=
  { id := "7"
    name := some "My Stick"
    description := some "Intro. hi"
    date := some 1262390400
    author := some "Bob"
    download_link := some "/resources/grab.php?file=my.zip"
    category := some "Weapons"
    downloads := some 12
    version := some "1.0"
    vote_score := some 3
    usage_rating := some "Everyone"
    retrieved := some 0 }

/-- A homepage without the latest heading, for the C6 witness. -/
def c6_panels : List Panel :=
  [{ heading := "Other Heading", anchors := [] }]

/-- A row linking id 9 to a zip archive, for claim C9. -/
def c9_row : StickData :=
  { id := "9", download_link := some "/resources/grab.php?file=a.zip" }

/-- A store whose only row links to a zip archive, for claim C9. -/
def c9_store : Store := [c9_row]

/-- A store whose only row links to a rar archive, for claim C9. -/
def c9_rar_store : Store :=
  [{ id := "9", download_link := some "/resources/grab.php?file=a.rar" }]

theorem count_rows_append_single (store : Store) (r : StickData) (id : String) :
    count_rows (store ++ [r]) id
      = count_rows store id + (if r.id == id then 1 else 0) := by
  simp only [count_rows, List.filter_append, List.length_append]
  by_cases h : r.id == id <;> simp [List.filter, h]

theorem count_rows_eq_zero_of_select_none (store : Store) (id : String)
    (h : select_stick store id = none) : count_rows store id = 0 := by
  rw [count_rows, List.length_eq_zero, List.filter_eq_nil_iff]
  intro r hr
  exact (List.find?_eq_none.mp h) r hr

theorem count_rows_pos_of_select_some (store : Store) (id : String)
    (r : StickData) (h : select_stick store id = some r) :
    1 ≤ count_rows store id := by
  obtain ⟨hp, as, bs, rfl, -⟩ := List.find?_eq_some.mp h
  simp only [count_rows, List.filter_append, List.length_append]
  simp [List.filter, hp]
  omega

theorem select_stick_insert_id_self (store : Store) (id : String) :
    (select_stick (insert_id store id).1 id).isSome = true := by
  unfold insert_id
  cases h : select_stick store id with
  | some r => simp [h]
  | none =>
    simp only [h]
    rw [select_stick, List.find?_append]
    rw [select_stick] at h
    simp [h, List.find?, stub_row]

/-- C4: for every id, calling insert_id twice leaves exactly one row for that
id (given the primary-key invariant of at most one row beforehand), the first
call reports the id as new when it was absent, and the second call always
reports not new. -/
theorem C4_insert_id_idempotent (store : Store) (id : String)
    (hpk : count_rows store id ≤ 1) :
    count_rows (insert_id (insert_id store id).1 id).1 id = 1 ∧
    (insert_id (insert_id store id).1 id).2.is_new = false ∧
    (select_stick store id = none → (insert_id store id).2.is_new = true) := by
  have hsecond : ∀ s : Store, (select_stick s id).isSome = true →
      insert_id s id = (s, { id := id, is_new := false }) := by
    intro s hs
    unfold insert_id
    cases h : select_stick s id with
    | some r => rfl
    | none => rw [h] at hs; simp at hs
  have h2 := hsecond (insert_id store id).1 (select_stick_insert_id_self store id)
  refine ⟨?_, ?_, ?_⟩
  · rw [h2]
    cases h : select_stick store id with
    | some r =>
      have hfst : (insert_id store id).1 = store := by unfold insert_id; rw [h]
      rw [hfst]
      have := count_rows_pos_of_select_some store id r h
      omega
    | none =>
      have hfst : (insert_id store id).1 = store ++ [stub_row id] := by
        unfold insert_id; rw [h]
      rw [hfst, count_rows_append_single,
        count_rows_eq_zero_of_select_none store id h]
      simp [stub_row]
  · rw [h2]
  · intro h
    unfold insert_id
    rw [h]

/-- C4 witness: inserting the absent id 100 twice into the empty store leaves
one row, the first call reports new and the second does not. -/
theorem C4_insert_id_idempotent_witness :
    count_rows ([] : Store) "100" ≤ 1 ∧
    (count_rows (insert_id (insert_id ([] : Store) "100").1 "100").1 "100" = 1 ∧
     (insert_id (insert_id ([] : Store) "100").1 "100").2.is_new = false ∧
     (select_stick ([] : Store) "100" = none →
       (insert_id ([] : Store) "100").2.is_new = true)) :=
  ⟨by decide, C4_insert_id_idempotent [] "100" (by decide)⟩

/-- C6: when no heading on the homepage contains the marker text Latest 50
Accepted, scrape_latest fails with the parse error instead of skipping. -/
theorem C6_latest_heading_missing (panels : List Panel)
    (h : ∀ p ∈ panels, str_contains p.heading LATEST_MARKER = false) :
    scrape_latest panels = Except.error (ParseError.missingElement "latest_50_h2") := by
  unfold scrape_latest
  have : panels.find? (fun p => str_contains p.heading LATEST_MARKER) = none := by
    rw [List.find?_eq_none]
    intro p hp
    simp [h p hp]
  rw [this]

/-- C6 witness: a homepage whose only heading is unrelated makes scrape_latest
fail. -/
theorem C6_latest_heading_missing_witness :
    (∀ p ∈ c6_panels, str_contains p.heading LATEST_MARKER = false) ∧
    scrape_latest c6_panels
      = Except.error (ParseError.missingElement "latest_50_h2") :=
  ⟨by decide, C6_latest_heading_missing c6_panels (by decide)⟩

/-- C8: requesting the download link of an id absent from the store fails
with the not-found error. -/
theorem C8_download_link_not_found (store : Store) (id : String)
    (h : select_stick store id = none) :
    get_download_link store id = Except.error DownloadError.not_found := by
  unfold get_download_link
  rw [h]

/-- C8 witness: the empty store knows no id 9. -/
theorem C8_download_link_not_found_witness :
    select_stick ([] : Store) "9" = none ∧
    get_download_link ([] : Store) "9" = Except.error DownloadError.not_found :=
  ⟨rfl, C8_download_link_not_found [] "9" rfl⟩

/-- C10: the download subcommand given two or more explicit ids, none of them
the word all, downloads only the first id and ignores the rest, because the
loop body returns on its first iteration. -/
theorem C10_download_only_first (store : Store) (a b : String)
    (rest : List String) (overwrite extract : Bool) (winrar : Option String)
    (hw : extract = true → winrar.isSome = true)
    (hall : "all" ∉ a :: b :: rest) :
    download_argparse store
      { ids := a :: b :: rest, overwrite := overwrite, extract := extract }
      winrar = Except.ok [a] := by
  unfold download_argparse
  have h1 : (extract && winrar.isNone) = false := by
    cases extract with
    | false => rfl
    | true =>
      have hs := hw rfl
      cases winrar with
      | none => simp at hs
      | some w => rfl
  rw [h1]
  simp [List.length_cons]

/-- C10 witness: downloading ids 100 200 300 without extraction touches only
id 100. -/
theorem C10_download_only_first_witness :
    ((false = true → (none : Option String).isSome = true) ∧
     "all" ∉ ["100", "200", "300"]) ∧
    download_argparse []
      { ids := ["100", "200", "300"], overwrite := false, extract := false }
      none = Except.ok ["100"] :=
  ⟨⟨by decide, by decide⟩,
   C10_download_only_first [] "100" "200" ["300"] false false none
     (by decide) (by decide)⟩

/-- C7 counterexample: a request emits its GET with the fixed client
identifier header but acquires no rate-limit permit at all, and a 304
response, although not 2xx, does not fail. -/
theorem C7_fetch_claim_cex :
    (request "http://droidz.org/stickmain/" { status := 200, body := "" }).1
      = [Event.print_line "http://droidz.org/stickmain/",
         Event.http_get "http://droidz.org/stickmain/" USERAGENT] ∧
    Event.ratelimit_acquire ∉
      (request "http://droidz.org/stickmain/" { status := 200, body := "" }).1 ∧
    (request "http://droidz.org/stickmain/" { status := 304, body := "" }).2
      = Except.ok { status := 304, body := "" } := by
  refine ⟨rfl, ?_, rfl⟩
  decide

/-- C7 amended: request issues the GET carrying the fixed client identifier
header without ever acquiring a rate-limit permit (the download rate limiter
is acquired only by download_stick), and it fails exactly on 4xx and 5xx
statuses, so non-2xx statuses below 400 pass. -/
theorem C7_request_events (url : String) (response : HttpResponse) :
    Event.ratelimit_acquire ∉ (request url response).1 ∧
    Event.http_get url USERAGENT ∈ (request url response).1 ∧
    ((request url response).2 = Except.ok response ↔
      response.status < 400 ∨ 600 ≤ response.status) := by
  refine ⟨?_, ?_, ?_⟩
  · simp [request]
  · simp [request]
  · unfold request raise_for_status
    by_cases h : 400 ≤ response.status ∧ response.status < 600
    · have hb : (400 ≤ response.status && response.status < 600) = true := by
        simp [h.1, h.2]
      rw [hb]
      simp
      omega
    · have hb : (400 ≤ response.status && response.status < 600) = false := by
        rcases Nat.lt_or_ge response.status 400 with h1 | h1
        · simp; omega
        · rcases Nat.lt_or_ge response.status 600 with h2 | h2
          · exact absurd ⟨h1, h2⟩ h
          · simp; omega
      rw [hb]
      simp
      omega

theorem insert_latest_foldl_fst (ids : List String) (store : Store)
    (s0 : Option CrawlStatus) :
    (List.foldl
      (fun acc i =>
        let r := insert_id acc.1 i
        (r.1, some r.2))
      (store, s0) ids).1 = insert_ids store ids := by
  induction ids generalizing store s0 with
  | nil => rfl
  | cons i rest ih =>
    simp only [List.foldl_cons, insert_ids]
    exact ih (insert_id store i).1 (some (insert_id store i).2)

theorem insert_latest_append (store : Store) (front : List String) (x : String) :
    insert_latest store (front ++ [x])
      = (insert_ids store (front ++ [x]),
         some (insert_id (insert_ids store front) x).2) := by
  unfold insert_latest
  rw [List.foldl_append]
  rw [insert_ids, List.foldl_append]
  simp only [List.foldl_cons, List.foldl_nil]
  rw [insert_latest_foldl_fst front store none]
  rw [insert_ids]

/-- C1 counterexample: with the store knowing only id 4 and the latest panel
listing 5, 4, 3 most recent first, the source inserts stubs for all three ids
and runs the category fallback because the last id 3 was new, while the
break-on-known reading of the claim stops at the known id 4, never inserts 3,
and skips the fallback. -/
theorem C1_incremental_claim_cex :
    incremental_update_discovery [stub_row "4"] ["5", "4", "3"] (fun _ => [])
      = some ([stub_row "4", stub_row "5", stub_row "3"], true) ∧
    incremental_update_discovery_claim [stub_row "4"] ["5", "4", "3"] (fun _ => [])
      = some ([stub_row "4", stub_row "5"], false) :=
  ⟨rfl, rfl⟩

/-- C1 amended: incremental update inserts a stub for every latest-panel id in
most-recent-first order without stopping at already-known ids, and it falls
back to the full per-category traversal, inserting stubs for all discovered
ids, exactly when the last-processed panel id was newly inserted. -/
theorem C1_incremental_last_id_decides (store : Store) (front : List String)
    (x : String) (cat_ids : String → List String) :
    incremental_update_discovery store (front ++ [x]) cat_ids
      = (if select_stick (insert_ids store front) x = none then
          some (CATEGORIES.foldl (fun s c => insert_ids s (cat_ids c))
            (insert_ids store (front ++ [x])), true)
        else
          some (insert_ids store (front ++ [x]), false)) := by
  unfold incremental_update_discovery
  rw [insert_latest_append]
  cases h : select_stick (insert_ids store front) x with
  | none => simp [insert_id, h]
  | some r => simp [insert_id, h]

theorem scrape_direct_ok_parts (page : DetailPage) (id : String) (now : Int)
    (data : StickData) (h : scrape_direct page id now = Except.ok data) :
    data.id = id ∧ ∃ author raw, page.author_anchor = some author ∧
      page.section_content = some raw ∧ data.author = some author ∧
      data.description = normalize_description author raw := by
  unfold scrape_direct at h
  cases h1 : page.contents[1]? with
  | none => simp [h1] at h
  | some stick_info =>
  simp only [h1] at h
  cases h2 : page.author_anchor with
  | none => simp [h2] at h
  | some author =>
  simp only [h2] at h
  cases h3 : search_multiline stick_info "Vote Score: " (greedy_class_extract is_vote_char) with
  | none => simp [h3] at h
  | some vote_str =>
  simp only [h3] at h
  cases h4 : py_toInt vote_str with
  | none => simp [h4] at h
  | some vote_score =>
  simp only [h4] at h
  cases h5 : search_multiline stick_info "Downloads: " (greedy_class_extract Char.isDigit) with
  | none => simp [h5] at h
  | some downloads_str =>
  simp only [h5] at h
  cases h6 : py_toNat downloads_str with
  | none => simp [h6] at h
  | some downloads =>
  simp only [h6] at h
  cases h7 : search_multiline stick_info "Category: " lazy_dot_extract with
  | none => simp [h7] at h
  | some category =>
  simp only [h7] at h
  cases h8 : search_multiline stick_info "Version: " lazy_dot_extract with
  | none => simp [h8] at h
  | some version =>
  simp only [h8] at h
  cases h9 : search_multiline stick_info "Usage Rating: " lazy_dot_extract with
  | none => simp [h9] at h
  | some usage_rating =>
  simp only [h9] at h
  cases h10 : search_multiline stick_info "Date Submitted: " lazy_dot_extract with
  | none => simp [h10] at h
  | some date_str =>
  simp only [h10] at h
  cases h11 : parse_date date_str with
  | none => simp [h11] at h
  | some date =>
  simp only [h11] at h
  cases h12 : page.section_top_h2 with
  | none => simp [h12] at h
  | some name_raw =>
  simp only [h12] at h
  cases h13 : page.section_content with
  | none => simp [h13] at h
  | some description_raw =>
  simp only [h13] at h
  cases h14 : page.grab_anchor with
  | none => simp [h14] at h
  | some download_link =>
  simp only [h14] at h
  simp only [Except.ok.injEq] at h
  subst h
  exact ⟨rfl, author, description_raw, rfl, rfl, rfl, rfl⟩

/-- C5 counterexample: for author Bob and the content text
Intro. Bob says, hi the source deletes the non-leading marker occurrence and
stores Intro. hi, while the claim demands the text be left unchanged because
the marker is not a leading prefix. -/
theorem C5_description_claim_cex :
    (scrape_direct c5_page "7" 0).toOption.bind (fun d => d.description)
      = some "Intro. hi" ∧
    normalize_description "Bob" "Intro. Bob says, hi" = some "Intro. hi" ∧
    normalize_description_claim "Bob" "Intro. Bob says, hi"
      = some "Intro. Bob says, hi" :=
  ⟨rfl, rfl, rfl⟩

/-- C5 amended: a successfully parsed detail page has a null description
exactly when the trimmed content text equals the canned placeholder, and
otherwise its description is the trimmed text with every occurrence of the
author-says marker removed, leading or not. -/
theorem C5_description_normalization (page : DetailPage) (id : String)
    (now : Int) (data : StickData) (author raw : String)
    (h : scrape_direct page id now = Except.ok data)
    (ha : page.author_anchor = some author)
    (hc : page.section_content = some raw) :
    (data.description = none ↔ py_strip raw = author ++ PLACEHOLDER_TAIL) ∧
    (py_strip raw ≠ author ++ PLACEHOLDER_TAIL →
      data.description = some (py_replace (py_strip raw) (author ++ SAYS_TAIL) "")) := by
  obtain ⟨-, a2, r2, ha2, hc2, -, hd⟩ := scrape_direct_ok_parts page id now data h
  rw [ha] at ha2
  rw [hc] at hc2
  injection ha2 with ha2
  injection hc2 with hc2
  subst ha2
  subst hc2
  rw [hd]
  unfold normalize_description
  by_cases hp : raw.trim = author ++ PLACEHOLDER_TAIL
  · simp [hp]
  · simp [hp]

/-- C5 witness: the concrete page c5_page parses to c5_data, whose trimmed
content text differs from the placeholder, and its description is the text
with the marker occurrences removed. -/
theorem C5_description_normalization_witness :
    (scrape_direct c5_page "7" 0 = Except.ok c5_data ∧
     c5_page.author_anchor = some "Bob" ∧
     c5_page.section_content = some "Intro. Bob says, hi") ∧
    ((c5_data.description = none ↔
        py_strip "Intro. Bob says, hi" = "Bob" ++ PLACEHOLDER_TAIL) ∧
     (py_strip "Intro. Bob says, hi" ≠ "Bob" ++ PLACEHOLDER_TAIL →
       c5_data.description
         = some (py_replace (py_strip "Intro. Bob says, hi") ("Bob" ++ SAYS_TAIL) ""))) :=
  ⟨⟨rfl, rfl, rfl⟩,
   C5_description_normalization c5_page "7" 0 c5_data "Bob" "Intro. Bob says, hi"
     rfl rfl rfl⟩

theorem find?_update_ne (store : Store) (d : StickData) (f : String)
    (hne : (d.id == f) = false) :
    (store.map (fun row => if row.id == d.id then d else row)).find?
        (fun row => row.id == f)
      = store.find? (fun row => row.id == f) := by
  induction store with
  | nil => rfl
  | cons r rs ih =>
    simp only [List.map_cons]
    by_cases h1 : (r.id == d.id) = true
    · have hrf : (r.id == f) = false := by
        have hrd : r.id = d.id := beq_iff_eq.mp h1
        rw [hrd]
        exact hne
      rw [if_pos h1]
      simp only [List.find?_cons, hne, hrf]
      exact ih
    · rw [if_neg h1]
      by_cases h2 : (r.id == f) = true
      · simp only [List.find?_cons, h2]
      · have h2f : (r.id == f) = false := by simpa using h2
        simp only [List.find?_cons, h2f]
        exact ih

theorem select_stick_insert_stick_ne (store : Store) (d : StickData)
    (f : String) (hne : d.id ≠ f) :
    select_stick (insert_stick store d) f = select_stick store f := by
  have hb : (d.id == f) = false := by simp [hne]
  unfold insert_stick
  by_cases hex : (select_stick store d.id).isSome = true
  · rw [if_pos hex]
    exact find?_update_ne store d f hb
  · rw [if_neg hex]
    rw [select_stick, List.find?_append]
    have hd : List.find? (fun row => row.id == f) [d] = none := by
      simp [List.find?, hb]
    rw [hd]
    simp [select_stick]

theorem scrape_direct_ok_id (page : DetailPage) (i : String) (now : Int)
    (data : StickData) (h : scrape_direct page i now = Except.ok data) :
    data.id = i :=
  (scrape_direct_ok_parts page i now data h).1

/-- C3: when the detail parse of some listed id fails, the pipeline stops
with a propagated error and performs no upsert for that id, so the store is
unchanged with respect to that entry. -/
theorem C3_parse_failure_leaves_store (pages : String → DetailPage) (now : Int)
    (store : Store) (ids : List String) (f : String) (e : ParseError)
    (hmem : f ∈ ids)
    (herr : scrape_direct (pages f) f now = Except.error e) :
    (update_details (fun i => scrape_direct (pages i) i now) store ids).2.isSome
      = true ∧
    select_stick
        (update_details (fun i => scrape_direct (pages i) i now) store ids).1 f
      = select_stick store f := by
  induction ids generalizing store with
  | nil => cases hmem
  | cons i rest ih =>
    cases hi : scrape_direct (pages i) i now with
    | error e2 =>
      constructor
      · simp [update_details, hi]
      · simp [update_details, hi]
    | ok data =>
      have hif : i ≠ f := by
        intro hif
        rw [hif, herr] at hi
        cases hi
      have hmem2 : f ∈ rest := by
        rcases List.mem_cons.mp hmem with h | h
        · exact absurd h.symm hif
        · exact h
      have hdata : data.id = i := scrape_direct_ok_id (pages i) i now data hi
      have hne : data.id ≠ f := by rw [hdata]; exact hif
      have hstep : update_details (fun i => scrape_direct (pages i) i now) store
            (i :: rest)
          = update_details (fun i => scrape_direct (pages i) i now)
              (insert_stick store data) rest := by
        simp [update_details, hi]
      rw [hstep]
      have hrec := ih (insert_stick store data) hmem2
      exact ⟨hrec.1,
        hrec.2.trans (select_stick_insert_stick_ne store data f hne)⟩

/-- C3 witness: processing ids 77 then 88, where the page of 88 is broken,
upserts 77, propagates the error, and leaves the store without any row for
88, as before the run. -/
theorem C3_parse_failure_leaves_store_witness :
    ("88" ∈ ["77", "88"] ∧
     scrape_direct (c3_pages "88") "88" 1000
       = Except.error (ParseError.missingElement "stick_info")) ∧
    ((update_details (fun i => scrape_direct (c3_pages i) i 1000) []
        ["77", "88"]).2.isSome = true ∧
     select_stick
         (update_details (fun i => scrape_direct (c3_pages i) i 1000) []
           ["77", "88"]).1 "88"
       = select_stick [] "88") :=
  ⟨⟨by decide, rfl⟩,
   C3_parse_failure_leaves_store c3_pages 1000 [] ["77", "88"] "88"
     (ParseError.missingElement "stick_info") (by decide) rfl⟩

theorem set_update_cons {α : Type} [DecidableEq α] (all : List α) (c : α)
    (cs : List α) :
    set_update all (c :: cs) = set_update (if c ∈ all then all else all ++ [c]) cs :=
  rfl

theorem mem_set_update {α : Type} [DecidableEq α] (l : List α) (all : List α)
    (a : α) : a ∈ set_update all l ↔ a ∈ all ∨ a ∈ l := by
  induction l generalizing all with
  | nil => simp [set_update]
  | cons c cs ih =>
    rw [set_update_cons]
    by_cases h : c ∈ all
    · rw [if_pos h, ih]
      constructor
      · rintro (ha | hc)
        · exact Or.inl ha
        · exact Or.inr (List.mem_cons_of_mem c hc)
      · rintro (ha | hc)
        · exact Or.inl ha
        · rcases List.mem_cons.mp hc with rfl | hc2
          · exact Or.inl h
          · exact Or.inr hc2
    · rw [if_neg h, ih]
      constructor
      · rintro (ha | hc)
        · rcases List.mem_append.mp ha with h1 | h1
          · exact Or.inl h1
          · rw [List.mem_singleton.mp h1]
            exact Or.inr (List.mem_cons_self c cs)
        · exact Or.inr (List.mem_cons_of_mem c hc)
      · rintro (ha | hc)
        · exact Or.inl (List.mem_append.mpr (Or.inl ha))
        · rcases List.mem_cons.mp hc with rfl | hc2
          · exact Or.inl (List.mem_append.mpr (Or.inr (List.mem_singleton.mpr rfl)))
          · exact Or.inr hc2

theorem length_set_update_mono {α : Type} [DecidableEq α] (l : List α)
    (all : List α) : all.length ≤ (set_update all l).length := by
  induction l generalizing all with
  | nil => simp [set_update]
  | cons c cs ih =>
    rw [set_update_cons]
    by_cases h : c ∈ all
    · rw [if_pos h]
      exact ih all
    · rw [if_neg h]
      have h2 := ih (all ++ [c])
      rw [List.length_append] at h2
      omega

theorem length_set_update_eq_iff {α : Type} [DecidableEq α] (l : List α)
    (all : List α) :
    (set_update all l).length = all.length ↔ ∀ a ∈ l, a ∈ all := by
  induction l generalizing all with
  | nil => simp [set_update]
  | cons c cs ih =>
    rw [set_update_cons]
    by_cases h : c ∈ all
    · rw [if_pos h, ih]
      constructor
      · intro hall a ha
        rcases List.mem_cons.mp ha with rfl | h2
        · exact h
        · exact hall a h2
      · intro hall a ha
        exact hall a (List.mem_cons_of_mem c ha)
    · rw [if_neg h]
      constructor
      · intro hlen
        have h2 : all.length + 1 ≤ all.length := by
          have h1 := length_set_update_mono cs (all ++ [c])
          rw [hlen, List.length_append] at h1
          simp at h1
        omega
      · intro hall
        exact absurd (hall c (List.mem_cons_self c cs)) h

theorem mem_accum_pages_of_mem (pages : Nat → List Anchor) (n : Nat) :
    ∀ (all : List Anchor) (p : Nat) (a : Anchor), a ∈ all →
      a ∈ accum_pages pages all p n := by
  induction n with
  | zero => intro all p a h; exact h
  | succ n ih =>
    intro all p a h
    exact ih (set_update all (pages p)) (p + 1) a
      ((mem_set_update (pages p) all a).mpr (Or.inl h))

theorem pages_mem_accum (pages : Nat → List Anchor) (n : Nat) :
    ∀ (p : Nat) (all : List Anchor) (j : Nat), j < n →
      ∀ a, a ∈ pages (p + j) → a ∈ accum_pages pages all p n := by
  induction n with
  | zero => intro p all j hj a ha; omega
  | succ n ih =>
    intro p all j hj a ha
    cases j with
    | zero =>
      have h0 : a ∈ set_update all (pages p) := by
        rw [mem_set_update]
        exact Or.inr (by simpa using ha)
      exact mem_accum_pages_of_mem pages n (set_update all (pages p)) (p + 1) a h0
    | succ j =>
      have ha2 : a ∈ pages ((p + 1) + j) := by
        have harith : (p + 1) + j = p + (j + 1) := by omega
        rw [harith]
        exact ha
      exact ih (p + 1) (set_update all (pages p)) j (by omega) a ha2

theorem scrape_category_aux_run (pages : Nat → List Anchor) (n : Nat) :
    ∀ (p : Nat) (all : List Anchor) (fuel : Nat),
      (∀ j, j < n → ∃ a, a ∈ pages (p + j) ∧ a ∉ accum_pages pages all p j) →
      (∀ a, a ∈ pages (p + n) → a ∈ accum_pages pages all p n) →
      n + 1 ≤ fuel →
      scrape_category_aux pages fuel p all
        = some (pages_ids pages p n, p + n) := by
  induction n with
  | zero =>
    intro p all fuel hnew hstop hfuel
    match fuel, hfuel with
    | fuel + 1, _ =>
      unfold scrape_category_aux
      have hlen : (set_update all (pages p)).length = all.length := by
        rw [length_set_update_eq_iff]
        intro a ha
        exact hstop a (by simpa using ha)
      rw [if_pos hlen]
      simp [pages_ids]
  | succ n ih =>
    intro p all fuel hnew hstop hfuel
    match fuel, hfuel with
    | fuel + 1, _ =>
      unfold scrape_category_aux
      have hne : ¬ (set_update all (pages p)).length = all.length := by
        rw [length_set_update_eq_iff]
        obtain ⟨a, ha, hnotin⟩ := hnew 0 (by omega)
        intro hall
        exact hnotin (hall a (by simpa using ha))
      rw [if_neg hne]
      have hnew2 : ∀ j, j < n → ∃ a, a ∈ pages ((p + 1) + j) ∧
          a ∉ accum_pages pages (set_update all (pages p)) (p + 1) j := by
        intro j hj
        obtain ⟨a, ha, hno⟩ := hnew (j + 1) (by omega)
        refine ⟨a, ?_, ?_⟩
        · have harith : (p + 1) + j = p + (j + 1) := by omega
          rw [harith]
          exact ha
        · exact hno
      have hstop2 : ∀ a, a ∈ pages ((p + 1) + n) →
          a ∈ accum_pages pages (set_update all (pages p)) (p + 1) n := by
        intro a ha
        have ha2 : a ∈ pages (p + (n + 1)) := by
          have harith : p + (n + 1) = (p + 1) + n := by omega
          rw [harith]
          exact ha
        exact hstop a ha2
      have hrec := ih (p + 1) (set_update all (pages p)) fuel hnew2 hstop2 (by omega)
      rw [hrec]
      have harith : (p + 1) + n = p + (n + 1) := by omega
      simp only [harith]
      rfl

/-- C2 counterexample: page 2 repeats the only identifier of page 1 through a
different anchor element, so it contributes zero new identifiers, yet the
source keeps going because the anchor element is new to its running set; it
stops only at page 3 and yields the id twice, while the claim predicts a stop
at page 2 yielding the id once. -/
theorem C2_category_claim_cex :
    scrape_category c2_pages 10 = some (["5", "5"], 3) ∧
    scrape_category_claim c2_pages 10 = some (["5"], 2) :=
  ⟨rfl, rfl⟩

/-- C2 amended: the traversal starts at page 1 and stops exactly when a page
contributes zero anchor elements (not extracted identifiers) new to the
running set; when each of pages 1 through K contributes a new anchor and page
K+1 repeats anchors of page K, it stops at page K+1 and returns the ids of
pages 1 through K in order, duplicates preserved. -/
theorem C2_fixed_point_on_anchors (pages : Nat → List Anchor) (K fuel : Nat)
    (hK : 1 ≤ K)
    (hnew : ∀ j, j < K → ∃ a, a ∈ pages (1 + j) ∧ a ∉ accum_pages pages [] 1 j)
    (hrep : ∀ a, a ∈ pages (1 + K) → a ∈ pages K)
    (hfuel : K + 1 ≤ fuel) :
    scrape_category pages fuel = some (pages_ids pages 1 K, 1 + K) := by
  unfold scrape_category
  apply scrape_category_aux_run pages K 1 [] fuel hnew ?_ hfuel
  intro a ha
  apply pages_mem_accum pages K 1 [] (K - 1) (by omega) a
  have harith : 1 + (K - 1) = K := by omega
  rw [harith]
  exact hrep a ha

/-- C2 witness: two pages carrying the same single anchor stop the traversal
at page 2 with the one id of page 1. -/
theorem C2_fixed_point_on_anchors_witness :
    (1 ≤ 1 ∧
     (∀ j, j < 1 → ∃ a, a ∈ w2_pages (1 + j) ∧ a ∉ accum_pages w2_pages [] 1 j) ∧
     (∀ a, a ∈ w2_pages (1 + 1) → a ∈ w2_pages 1) ∧
     1 + 1 ≤ 2) ∧
    scrape_category w2_pages 2 = some (pages_ids w2_pages 1 1, 1 + 1) :=
  ⟨⟨by decide, by decide, by decide, by decide⟩,
   C2_fixed_point_on_anchors w2_pages 1 2 (by decide) (by decide) (by decide)
     (by decide)⟩

/-- C9 counterexample: with extraction requested, the zip archive is removed
even though the tool exited with failure status 1, and the rar archive is
fetched and written with extraction requested yet the tool is never invoked;
both contradict invoked-always plus removed-only-on-success. -/
theorem C9_extract_claim_cex :
    download_stick c9_store "9" false true false (some "winrar")
        { status := 200, body := "x" } 1
      = ([Event.ratelimit_acquire, Event.print_line "Downloading 9",
          Event.print_line "/resources/grab.php?file=a.zip",
          Event.http_get "/resources/grab.php?file=a.zip" USERAGENT,
          Event.make_dirs "download/9", Event.write_file "download/9/a.zip",
          Event.run_tool ["winrar", "x", "-o+", "-ibck", "download/9/a.zip",
            "*.*", "download/9/"],
          Event.remove_file "download/9/a.zip"],
         Except.ok "download/9") ∧
    download_stick c9_rar_store "9" false true false (some "winrar")
        { status := 200, body := "x" } 0
      = ([Event.ratelimit_acquire, Event.print_line "Downloading 9",
          Event.print_line "/resources/grab.php?file=a.rar",
          Event.http_get "/resources/grab.php?file=a.rar" USERAGENT,
          Event.make_dirs "download/9", Event.write_file "download/9/a.rar"],
         Except.ok "download/9") :=
  ⟨rfl, rfl⟩

/-- C9 amended: with extraction requested, winrar available and the archive
fetched and written, the tool is invoked and the archive file is removed
immediately afterwards exactly when the file name carries the zip extension,
and the removal happens for every tool exit status; for other extensions
neither invocation nor removal occurs. -/
theorem C9_extract_behaviour (store : Store) (id : String)
    (overwrite dir_exists : Bool) (w : String) (response : HttpResponse)
    (tool_exit : Nat) (row : StickData) (link filename : String)
    (hskip : (dir_exists && !overwrite) = false)
    (hrow : select_stick store id = some row)
    (hlink : row.download_link = some link)
    (hfile : re_search_file link = some filename)
    (hok : raise_for_status response.status = false) :
    (path_extension filename = "zip" →
      download_stick store id overwrite true dir_exists (some w) response
          tool_exit
        = ([Event.ratelimit_acquire, Event.print_line ("Downloading " ++ id),
            Event.print_line link, Event.http_get link USERAGENT,
            Event.make_dirs (stick_directory id),
            Event.write_file (stick_filepath id filename),
            Event.run_tool [w, "x", "-o+", "-ibck", stick_filepath id filename,
              "*.*", stick_directory id ++ "/"],
            Event.remove_file (stick_filepath id filename)],
           Except.ok (stick_directory id))) ∧
    (path_extension filename ≠ "zip" →
      download_stick store id overwrite true dir_exists (some w) response
          tool_exit
        = ([Event.ratelimit_acquire, Event.print_line ("Downloading " ++ id),
            Event.print_line link, Event.http_get link USERAGENT,
            Event.make_dirs (stick_directory id),
            Event.write_file (stick_filepath id filename)],
           Except.ok (stick_directory id))) := by
  constructor
  · intro hzip
    have hz : (path_extension filename == "zip") = true := by
      simp [hzip]
    unfold download_stick
    simp only [hskip, Bool.false_eq_true, if_false, hrow, hlink, hfile, request,
      hok, hz]
    simp
  · intro hzip
    have hz : (path_extension filename == "zip") = false := by
      simp [hzip]
    unfold download_stick
    simp only [hskip, Bool.false_eq_true, if_false, hrow, hlink, hfile, request,
      hok, hz]
    simp

/-- C9 witness: the concrete zip download with failing tool exit 1 runs the
tool and removes the archive anyway. -/
theorem C9_extract_behaviour_witness :
    ((false && !false) = false ∧
     select_stick c9_store "9" = some c9_row ∧
     c9_row.download_link = some "/resources/grab.php?file=a.zip" ∧
     re_search_file "/resources/grab.php?file=a.zip" = some "a.zip" ∧
     raise_for_status 200 = false ∧
     path_extension "a.zip" = "zip") ∧
    download_stick c9_store "9" false true false (some "winrar")
        { status := 200, body := "x" } 1
      = ([Event.ratelimit_acquire, Event.print_line ("Downloading " ++ "9"),
          Event.print_line "/resources/grab.php?file=a.zip",
          Event.http_get "/resources/grab.php?file=a.zip" USERAGENT,
          Event.make_dirs (stick_directory "9"),
          Event.write_file (stick_filepath "9" "a.zip"),
          Event.run_tool ["winrar", "x", "-o+", "-ibck",
            stick_filepath "9" "a.zip", "*.*", stick_directory "9" ++ "/"],
          Event.remove_file (stick_filepath "9" "a.zip")],
         Except.ok (stick_directory "9")) :=
  ⟨⟨rfl, rfl, rfl, rfl, rfl, rfl⟩,
   (C9_extract_behaviour c9_store "9" false false "winrar"
       { status := 200, body := "x" } 1 c9_row "/resources/grab.php?file=a.zip"
       "a.zip" rfl rfl rfl rfl rfl).1 rfl⟩
